import Mathlib

/-!
Shallow embedding of `src/pyasst/spider.py` (the `Delay` throttle and the
`RequestHandler` dispatcher) and proofs of its specified properties.

Modelling conventions:
* Python byte strings are `List Nat`; HTTP headers are association lists
  `List (String × String)` queried with `List.lookup`.
* The external HTTP transport is a parameter.  Within one `request` call the
  transport is called repeatedly with the same method, url and kwargs, so its
  external state is determinized by the attempt index: the `Nat` argument is
  the number of transport calls this dispatch has already issued.  A transport
  call either returns a `Response` or raises an exception of an abstract type
  `ε` (the Python code has no try/except, so such an exception aborts the loop).
* `time.sleep` durations (Python floats used only as opaque stored data, never
  computed with) are modelled as rationals.
* Exceptions raised by `request` itself are the three distinct `RuntimeError`
  raise sites of the source, told apart by their message contents; they are the
  first three constructors of `SpiderError`.  `SpiderError.transport e` is not
  a fourth dispatcher error kind: it marks an exception `e` of the underlying
  transport escaping `request` uncaught, carried unchanged.
-/

namespace Spider

/-- A chunk / body of raw bytes (`bytes` in Python). -/
abbrev Bytes := List Nat

/-- `CHUCK_SIZE = 8192`: the chunk size `download` passes to `iter_content`.
The stream's actual yields are modelled as an explicit list of chunks, so this
constant only documents the requested size. -/
def CHUCK_SIZE : Nat := 8192

/-- The module-level `HEADERS` constant (default User-Agent). -/
def HEADERS : List (String × String) :=
  [("User-Agent", "Mozilla/5.0 (Macintosh; Intel Mac OS X 10_15_3) AppleWebKit/537.36 (KHTML, like Gecko) Chrome/79.0.3945.130 Safari/537.36 ")]

/-- A `requests.Response` as far as this module observes it: integer status
code, header mapping, buffered body bytes. -/
structure Response where
  status_code : Int
  headers : List (String × String)
  content : Bytes
  deriving DecidableEq, Repr

/-- The `Delay` class: `counter` starts at 0, `step` the activation interval,
`sleep` the pause duration in seconds. -/
structure Delay where
  counter : Nat
  step : Nat
  sleep : ℚ
  deriving DecidableEq, Repr

/-- `Delay.action`: `self.counter += 1; if self.counter % self.step == 0:
time.sleep(self.sleep)`.  Returns the updated object and whether the sleep
fired (the side effect `time.sleep` is reflected as this Boolean). -/
def Delay.action (d : Delay) : Delay × Bool :=
  ({ d with counter := d.counter + 1 }, (d.counter + 1) % d.step == 0)

/-- The delay object held by a `RequestHandler`: either a real `Delay` or the
`_FalseDelay_` subclass, whose overriding `action` is `pass` (it still carries
the inherited fields, but never touches them). -/
inductive DelayObj where
  | real (d : Delay)
  | noop (d : Delay)
  deriving DecidableEq, Repr

/-- Dynamic dispatch of `.action()` on the delay object. -/
def DelayObj.action : DelayObj → DelayObj × Bool
  | .real d => ((.real (d.action).1), (d.action).2)
  | .noop d => (.noop d, false)

/-- The counter field of the underlying `Delay` (present on both variants). -/
def DelayObj.counter : DelayObj → Nat
  | .real d => d.counter
  | .noop d => d.counter

/-- `n` successive activations of a delay object. -/
def DelayObj.iter (d : DelayObj) : Nat → DelayObj
  | 0 => d
  | n + 1 => ((d.action).1).iter n

/-- Number of sleeps fired during `n` successive activations. -/
def DelayObj.pausesIn (d : DelayObj) : Nat → Nat
  | 0 => 0
  | n + 1 => (if (d.action).2 then 1 else 0) + ((d.action).1).pausesIn n

/-- `n` successive activations of a bare `Delay`. -/
def Delay.iter (d : Delay) : Nat → Delay
  | 0 => d
  | n + 1 => ((d.action).1).iter n

/-- Number of sleeps fired during `n` successive activations of a bare
`Delay`. -/
def Delay.pausesIn (d : Delay) : Nat → Nat
  | 0 => 0
  | n + 1 => (if (d.action).2 then 1 else 0) + ((d.action).1).pausesIn n

/-- The exceptions `RequestHandler.request` can surface.  The first three are
its own `RuntimeError` raise sites (distinguished in the source by message);
`transport e` is an exception of the underlying transport propagating
uncaught; `noneStatus` is the `AttributeError` Python would raise reading
`res.status_code` off `None` when `retry <= 0` (unreachable for `retry >= 1`). -/
inductive SpiderError (ε : Type) where
  | invalidArgument
  | unsupportedMethod (method : String)
  | httpError (status : Int) (url : String)
  | transport (e : ε)
  | noneStatus
  deriving DecidableEq, Repr

/-- Python's `str.lower()`, evaluated characterwise.  (Identical in effect to
`String.toLower`, which is defined by well-founded recursion over byte
positions and hence is not evaluable by `decide`/`rfl`.) -/
def strLower (s : String) : String := ⟨s.data.map Char.toLower⟩

/-- The keys of `self.methods`: the bound HTTP verbs. -/
def methodKeys : List String :=
  ["get", "options", "head", "post", "put", "patch", "delete"]

/-- `if 'headers' not in kwargs: kwargs['headers'] = self.headers`. -/
def effKwargs {V : Type} (kwargs : List (String × V)) (selfHeaders : V) :
    List (String × V) :=
  if (kwargs.lookup "headers").isSome then kwargs
  else kwargs ++ [("headers", selfHeaders)]

/-- What one call to `RequestHandler.request` did: its outcome, how many
transport calls it issued, the final state of the shared delay object, and how
many throttle pauses fired. -/
structure DispatchOut (ε : Type) where
  outcome : Except (SpiderError ε) Response
  calls : Nat
  delay : DelayObj
  pauses : Nat

/-- The external HTTP transport: method key, url, kwargs, attempt index. -/
abbrev Transport (V ε : Type) :=
  String → String → List (String × V) → Nat → Except ε Response

/-- The `while retry_count < self.retry` loop of `request`, with the
determinized transport `t` already applied to method, url and kwargs.
Arguments: remaining iterations (`self.retry - retry_count`), the delay
object, transport calls issued so far, pauses so far, and the last response
`res` (`none` only before the first attempt).  Each iteration activates the
delay, issues the transport call, returns on status 200, retries otherwise;
after the last iteration it raises `HttpError` off the last response. -/
def requestLoop {ε : Type} (t : Nat → Except ε Response) (url : String) :
    Nat → DelayObj → Nat → Nat → Option Response → DispatchOut ε
  | 0, d, calls, pauses, last =>
    match last with
    | some r => ⟨.error (.httpError r.status_code url), calls, d, pauses⟩
    | none => ⟨.error .noneStatus, calls, d, pauses⟩
  | n + 1, d, calls, pauses, _ =>
    let d1 := (d.action).1
    let pauses1 := pauses + (if (d.action).2 then 1 else 0)
    match t calls with
    | .error e => ⟨.error (.transport e), calls + 1, d1, pauses1⟩
    | .ok r =>
      if r.status_code ≠ 200 then
        requestLoop t url n d1 (calls + 1) pauses1 (some r)
      else
        ⟨.ok r, calls + 1, d1, pauses1⟩

/-- `RequestHandler.request(url, method, **kwargs)`.  Validates the arguments
(`raise RuntimeError` on empty url or method), lowercases the method and looks
it up in `self.methods` (`raise RuntimeError` when absent), injects
`self.headers` when the caller gave none, then runs the retry loop. -/
def request {V ε : Type} (transport : Transport V ε)
    (retry : Nat) (delay : DelayObj) (selfHeaders : V)
    (url method : String) (kwargs : List (String × V)) : DispatchOut ε :=
  if method = "" ∨ url = "" then
    ⟨.error .invalidArgument, 0, delay, 0⟩
  else
    if strLower method ∈ methodKeys then
      requestLoop (transport (strLower method) url (effKwargs kwargs selfHeaders))
        url retry delay 0 0 none
    else
      ⟨.error (.unsupportedMethod (strLower method)), 0, delay, 0⟩

/-- Total byte length of a list of chunks. -/
def cumLen (cs : List Bytes) : Nat := (cs.map List.length).sum

/-- The `for chuck in res.iter_content(CHUCK_SIZE)` loop of `download` under a
declared `Content-Length`.  `L` is `content_length` (the parsed header), `dl`
is `download_length`; the result is the list of `f.write` calls issued.  Each
chunk read is written when non-empty (`if chuck:`); then the cumulative length
(empty chunks included) is increased and compared against `L`, and the loop
breaks once it reaches or exceeds it. -/
def downloadLoop (L : Int) : List Bytes → Nat → List Bytes
  | [], _ => []
  | c :: rest, dl =>
    let w : List Bytes := if c.isEmpty then [] else [c]
    let dl1 := dl + c.length
    if L ≤ (dl1 : Int) then w else w ++ downloadLoop L rest dl1

/-- Decimal digits to a number, `none` on an empty or non-digit list. -/
def digitsToNat? (cs : List Char) : Option Nat :=
  if cs = [] then none
  else cs.foldl (fun acc c => acc.bind (fun n =>
    if c.isDigit then some (n * 10 + (c.toNat - 48)) else none)) (some 0)

/-- Python's `int(...)` applied to a header value, modelled over the character
list: an optional sign followed by at least one decimal digit, `none` where
`int` raises `ValueError`.  (`int` additionally strips surrounding whitespace
and allows underscore separators; header values are plain digit strings, on
which the two readings agree.  `String.toInt?` is not used because it is
defined by well-founded recursion and cannot be evaluated by the kernel.) -/
def parseInt (s : String) : Option Int :=
  match s.data with
  | '-' :: rest => (digitsToNat? rest).map (fun n => -(n : Int))
  | '+' :: rest => (digitsToNat? rest).map (fun n => (n : Int))
  | cs => (digitsToNat? cs).map (fun n => (n : Int))

/-- The body-writing part of `RequestHandler.download` (the block under
`with self.request(...) as res`): given the streamed response and the chunk
sequence its `iter_content` yields, the list of `f.write` calls issued, or
`none` when Python's `int(res.headers['Content-Length'])` would raise on a
malformed header.  With no `Content-Length` header the whole buffered body is
written in one shot.  (Directory creation and the scoped closing of the file
and stream carry no logic and are not modelled.) -/
def downloadWrites (res : Response) (chunks : List Bytes) : Option (List Bytes) :=
  match res.headers.lookup "Content-Length" with
  | some v => (parseInt v).map (fun L => downloadLoop L chunks 0)
  | none => some [res.content]

/-- The `encoding` argument of the constructor: a str, list or tuple. -/
inductive EncodingArg where
  | str (s : String)
  | list (l : List String)
  | tup (l : List String)
  deriving DecidableEq, Repr

/-- The `type(encoding) == str` / `type(encoding) == list` normalization: a
lone string becomes a one-element tuple, a list becomes a tuple, a tuple
passes through. -/
def normalizeEncoding : EncodingArg → List String
  | .str s => [s]
  | .list l => l
  | .tup l => l

/-- Values an instance attribute of `RequestHandler` can hold.  `extra` tags
an arbitrary caller-supplied keyword value; the others are the objects the
constructor body builds: the logger, `requests.Session() if session else
requests`, the verb-to-bound-method dict over that session, and the stored
headers / encodes / retry / delay configuration. -/
inductive PyVal where
  | extra (tag : Nat)
  | loggerObj
  | sessionObj (shared : Bool)
  | methodsDict (shared : Bool)
  | headersDict (h : List (String × String))
  | encodesTup (e : List String)
  | retryVal (r : Nat)
  | delayVal (d : DelayObj)
  deriving DecidableEq, Repr

/-- The instance `__dict__`: a map from attribute name to value. -/
def Attrs := String → Option PyVal

/-- Python `setattr(self, k, v)` / attribute assignment. -/
def setattr (a : Attrs) (k : String) (v : PyVal) : Attrs :=
  fun q => if q = k then some v else a q

/-- `RequestHandler.__init__`.  The body first setattrs every extra keyword in
order, then assigns `logger`, `session`, `methods`, `headers` (defaulting to a
copy of `HEADERS`), `encodes` (the normalized encoding), `retry` and `delay`
(defaulting to a fresh `_FalseDelay_()`).  Python's calling convention keeps a
keyword named like a declared parameter (`session`, `headers`, `encoding`,
`retry`, `delay`) out of `kwargs`, but the theorems below need no such
restriction. -/
def RequestHandler.init (session : Bool) (headers : Option (List (String × String)))
    (encoding : EncodingArg) (retry : Nat) (delay : Option DelayObj)
    (kwargs : List (String × PyVal)) : Attrs :=
  let a0 : Attrs := fun _ => none
  let a1 := kwargs.foldl (fun a kv => setattr a kv.1 kv.2) a0
  let a2 := setattr a1 "logger" .loggerObj
  let a3 := setattr a2 "session" (.sessionObj session)
  let a4 := setattr a3 "methods" (.methodsDict session)
  let a5 := setattr a4 "headers"
    (.headersDict (match headers with | none => HEADERS | some h => h))
  let a6 := setattr a5 "encodes" (.encodesTup (normalizeEncoding encoding))
  let a7 := setattr a6 "retry" (.retryVal retry)
  setattr a7 "delay"
    (.delayVal (match delay with | none => .noop ⟨0, 10, 1⟩ | some d => d))

/-! ### Helper lemmas on the throttle -/

theorem Delay.iter_mk (c N : Nat) (s : ℚ) (n : Nat) :
    Delay.iter ⟨c, N, s⟩ n = ⟨c + n, N, s⟩ := by
  induction n generalizing c with
  | zero => rfl
  | succ n ih =>
    show Delay.iter ⟨c + 1, N, s⟩ n = _
    rw [ih]
    congr 1
    omega

theorem Delay.pausesIn_add (a : Nat) :
    ∀ (d : Delay) (b : Nat), d.pausesIn (a + b) = d.pausesIn a + (d.iter a).pausesIn b := by
  induction a with
  | zero => intro d b; simp [Delay.pausesIn, Delay.iter]
  | succ a ih =>
    intro d b
    rw [Nat.succ_add]
    show (if (d.action).2 then 1 else 0) + ((d.action).1).pausesIn (a + b) = _
    rw [ih]
    show _ = (if (d.action).2 then 1 else 0) + ((d.action).1).pausesIn a
      + (((d.action).1).iter a).pausesIn b
    omega

theorem Delay.pausesIn_zero_of_add_lt (N : Nat) (s : ℚ) :
    ∀ (n c : Nat), c + n < N → Delay.pausesIn ⟨c, N, s⟩ n = 0 := by
  intro n
  induction n with
  | zero => intro c _; rfl
  | succ n ih =>
    intro c h
    show (if (c + 1) % N == 0 then 1 else 0) + Delay.pausesIn ⟨c + 1, N, s⟩ n = 0
    have h1 : (c + 1) % N = c + 1 := Nat.mod_eq_of_lt (by omega)
    rw [ih (c + 1) (by omega)]
    simp [h1]

/-- C5: for every step `N ≥ 1`, starting from a throttle counter of 0, every
activation increments the counter by exactly 1, a pause fires on an activation
iff the resulting counter value is a multiple of the step, and a sequence of
exactly `N` activations triggers exactly one pause, occurring on the `N`th
activation (so none of the first `N - 1` activations pauses). -/
theorem delay_step_pause_characterization (N : Nat) (s : ℚ) (hN : 1 ≤ N) :
    (∀ d : Delay, ((d.action).1).counter = d.counter + 1) ∧
    (∀ d : Delay, ((d.action).2 = true ↔ (d.counter + 1) % d.step = 0)) ∧
    Delay.pausesIn ⟨0, N, s⟩ N = 1 ∧
    ((Delay.iter ⟨0, N, s⟩ (N - 1)).action).2 = true ∧
    (∀ k, k + 1 < N → ((Delay.iter ⟨0, N, s⟩ k).action).2 = false) := by
  refine ⟨fun d => rfl, fun d => by simp [Delay.action], ?_, ?_, ?_⟩
  · have hsplit : Delay.pausesIn ⟨0, N, s⟩ N = Delay.pausesIn ⟨0, N, s⟩ ((N - 1) + 1) := by
      rw [Nat.sub_add_cancel hN]
    rw [hsplit, Delay.pausesIn_add, Delay.pausesIn_zero_of_add_lt N s (N - 1) 0 (by omega),
      Delay.iter_mk]
    show 0 + ((if (0 + (N - 1) + 1) % N == 0 then 1 else 0) + Delay.pausesIn _ 0) = 1
    have : 0 + (N - 1) + 1 = N := by omega
    rw [this]
    simp [Nat.mod_self, Delay.pausesIn]
  · rw [Delay.iter_mk]
    show ((0 + (N - 1) + 1) % N == 0) = true
    have : 0 + (N - 1) + 1 = N := by omega
    rw [this]
    simp [Nat.mod_self]
  · intro k hk
    rw [Delay.iter_mk]
    show ((0 + k + 1) % N == 0) = false
    have : (0 + k + 1) % N = k + 1 := by
      rw [Nat.zero_add]
      exact Nat.mod_eq_of_lt hk
    rw [this]
    simp

/-- Witness for C5 at `N = 3`: three activations from a fresh counter pause
exactly once, on the third activation, and not on the first or second. -/
theorem delay_step_pause_characterization_witness :
    Delay.pausesIn ⟨0, 3, 1⟩ 3 = 1 ∧
    ((Delay.iter ⟨0, 3, 1⟩ 2).action).2 = true ∧
    ((Delay.iter ⟨0, 3, 1⟩ 0).action).2 = false ∧
    ((Delay.iter ⟨0, 3, 1⟩ 1).action).2 = false := by
  have h := delay_step_pause_characterization 3 1 (by omega)
  exact ⟨h.2.2.1, h.2.2.2.1, h.2.2.2.2 0 (by omega), h.2.2.2.2 1 (by omega)⟩

/-! ### Helper lemmas on the retry loop -/

theorem DelayObj.iter_succ (d : DelayObj) (n : Nat) :
    d.iter (n + 1) = ((d.action).1).iter n := rfl

theorem DelayObj.pausesIn_succ (d : DelayObj) (n : Nat) :
    d.pausesIn (n + 1) = (if (d.action).2 then 1 else 0) + ((d.action).1).pausesIn n := rfl

theorem DelayObj.iter_real (c N : Nat) (s : ℚ) (n : Nat) :
    DelayObj.iter (.real ⟨c, N, s⟩) n = .real ⟨c + n, N, s⟩ := by
  induction n generalizing c with
  | zero => rfl
  | succ n ih =>
    show DelayObj.iter (.real ⟨c + 1, N, s⟩) n = _
    rw [ih]
    congr 2
    omega

theorem requestLoop_zero_some {ε : Type} (t : Nat → Except ε Response) (url : String)
    (d : DelayObj) (calls pauses : Nat) (r : Response) :
    requestLoop t url 0 d calls pauses (some r) =
      ⟨.error (.httpError r.status_code url), calls, d, pauses⟩ := rfl

theorem requestLoop_succ {ε : Type} (t : Nat → Except ε Response) (url : String)
    (n : Nat) (d : DelayObj) (calls pauses : Nat) (last : Option Response) :
    requestLoop t url (n + 1) d calls pauses last =
      match t calls with
      | .error e => ⟨.error (.transport e), calls + 1, (d.action).1,
          pauses + (if (d.action).2 then 1 else 0)⟩
      | .ok r =>
        if r.status_code ≠ 200 then
          requestLoop t url n ((d.action).1) (calls + 1)
            (pauses + (if (d.action).2 then 1 else 0)) (some r)
        else
          ⟨.ok r, calls + 1, (d.action).1, pauses + (if (d.action).2 then 1 else 0)⟩ := rfl

theorem requestLoop_succAt {ε : Type} (t : Nat → Except ε Response) (url : String)
    (r : Response) (h200 : r.status_code = 200) :
    ∀ (k n calls pauses : Nat) (d : DelayObj) (last : Option Response),
      k < n →
      (∀ i, i < k → ∃ ri, t (calls + i) = .ok ri ∧ ri.status_code ≠ 200) →
      t (calls + k) = .ok r →
      requestLoop t url n d calls pauses last =
        ⟨.ok r, calls + k + 1, d.iter (k + 1), pauses + d.pausesIn (k + 1)⟩ := by
  intro k
  induction k with
  | zero =>
    intro n calls pauses d last hkn hfail hok
    match n, hkn with
    | n + 1, _ =>
      rw [Nat.add_zero] at hok
      rw [requestLoop_succ]
      simp only [hok, h200]
      simp [DelayObj.iter_succ, DelayObj.pausesIn_succ, DelayObj.iter, DelayObj.pausesIn]
  | succ k ih =>
    intro n calls pauses d last hkn hfail hok
    match n, hkn with
    | n + 1, hkn =>
      obtain ⟨r0, hr0, hr0s⟩ := hfail 0 (by omega)
      rw [Nat.add_zero] at hr0
      rw [requestLoop_succ]
      simp only [hr0]
      rw [if_pos hr0s]
      have hfail1 : ∀ i, i < k →
          ∃ ri, t (calls + 1 + i) = .ok ri ∧ ri.status_code ≠ 200 := by
        intro i hi
        have := hfail (i + 1) (by omega)
        rwa [show calls + (i + 1) = calls + 1 + i by omega] at this
      have hok1 : t (calls + 1 + k) = .ok r := by
        rwa [show calls + 1 + k = calls + (k + 1) by omega]
      rw [ih n (calls + 1) (pauses + if (d.action).2 then 1 else 0) ((d.action).1)
        (some r0) (by omega) hfail1 hok1]
      simp only [DispatchOut.mk.injEq, DelayObj.iter_succ, DelayObj.pausesIn_succ]
      exact ⟨trivial, by omega, trivial, by omega⟩

theorem requestLoop_errAt {ε : Type} (t : Nat → Except ε Response) (url : String)
    (e : ε) :
    ∀ (k n calls pauses : Nat) (d : DelayObj) (last : Option Response),
      k < n →
      (∀ i, i < k → ∃ ri, t (calls + i) = .ok ri ∧ ri.status_code ≠ 200) →
      t (calls + k) = .error e →
      requestLoop t url n d calls pauses last =
        ⟨.error (.transport e), calls + k + 1, d.iter (k + 1),
          pauses + d.pausesIn (k + 1)⟩ := by
  intro k
  induction k with
  | zero =>
    intro n calls pauses d last hkn hfail herr
    match n, hkn with
    | n + 1, _ =>
      rw [Nat.add_zero] at herr
      rw [requestLoop_succ]
      simp only [herr]
      simp [DelayObj.iter_succ, DelayObj.pausesIn_succ, DelayObj.iter, DelayObj.pausesIn]
  | succ k ih =>
    intro n calls pauses d last hkn hfail herr
    match n, hkn with
    | n + 1, hkn =>
      obtain ⟨r0, hr0, hr0s⟩ := hfail 0 (by omega)
      rw [Nat.add_zero] at hr0
      rw [requestLoop_succ]
      simp only [hr0]
      rw [if_pos hr0s]
      have hfail1 : ∀ i, i < k →
          ∃ ri, t (calls + 1 + i) = .ok ri ∧ ri.status_code ≠ 200 := by
        intro i hi
        have := hfail (i + 1) (by omega)
        rwa [show calls + (i + 1) = calls + 1 + i by omega] at this
      have herr1 : t (calls + 1 + k) = .error e := by
        rwa [show calls + 1 + k = calls + (k + 1) by omega]
      rw [ih n (calls + 1) (pauses + if (d.action).2 then 1 else 0) ((d.action).1)
        (some r0) (by omega) hfail1 herr1]
      simp only [DispatchOut.mk.injEq, DelayObj.iter_succ, DelayObj.pausesIn_succ]
      exact ⟨trivial, by omega, trivial, by omega⟩

theorem requestLoop_allFail {ε : Type} (t : Nat → Except ε Response) (url : String) :
    ∀ (n calls pauses : Nat) (d : DelayObj) (last : Option Response),
      1 ≤ n →
      (∀ i, i < n → ∃ ri, t (calls + i) = .ok ri ∧ ri.status_code ≠ 200) →
      ∃ rl, t (calls + n - 1) = .ok rl ∧
        requestLoop t url n d calls pauses last =
          ⟨.error (.httpError rl.status_code url), calls + n, d.iter n,
            pauses + d.pausesIn n⟩ := by
  intro n
  induction n with
  | zero => intro _ _ _ _ h; omega
  | succ n ih =>
    intro calls pauses d last _ hfail
    obtain ⟨r0, hr0, hr0s⟩ := hfail 0 (by omega)
    rw [Nat.add_zero] at hr0
    match n with
    | 0 =>
      rw [requestLoop_succ]
      simp only [hr0]
      rw [if_pos hr0s]
      refine ⟨r0, by simpa using hr0, ?_⟩
      rw [requestLoop_zero_some]
      simp [DelayObj.iter_succ, DelayObj.pausesIn_succ, DelayObj.iter, DelayObj.pausesIn]
    | n + 1 =>
      rw [requestLoop_succ]
      simp only [hr0]
      rw [if_pos hr0s]
      have hfail1 : ∀ i, i < n + 1 →
          ∃ ri, t (calls + 1 + i) = .ok ri ∧ ri.status_code ≠ 200 := by
        intro i hi
        have := hfail (i + 1) (by omega)
        rwa [show calls + (i + 1) = calls + 1 + i by omega] at this
      obtain ⟨rl, hrl, heq⟩ := ih (calls + 1)
        (pauses + if (d.action).2 then 1 else 0) ((d.action).1) (some r0)
        (by omega) hfail1
      refine ⟨rl, ?_, ?_⟩
      · rwa [show calls + (n + 1 + 1) - 1 = calls + 1 + (n + 1) - 1 by omega]
      · rw [heq]
        simp only [DispatchOut.mk.injEq, DelayObj.iter_succ, DelayObj.pausesIn_succ]
        exact ⟨trivial, by omega, trivial, by omega⟩

theorem ne_empty_of_strLower_mem {m : String} (h : strLower m ∈ methodKeys) :
    m ≠ "" := by
  intro he
  rw [he] at h
  exact absurd h (by decide)

theorem request_eq_requestLoop {V ε : Type} (transport : Transport V ε)
    (retry : Nat) (delay : DelayObj) (selfHeaders : V)
    (url method : String) (kwargs : List (String × V))
    (hu : url ≠ "") (hm : strLower method ∈ methodKeys) :
    request transport retry delay selfHeaders url method kwargs =
      requestLoop (transport (strLower method) url (effKwargs kwargs selfHeaders))
        url retry delay 0 0 none := by
  have hm' : method ≠ "" := ne_empty_of_strLower_mem hm
  simp [request, hm, hm', hu]


/-! ### Transports used by the witnesses -/

/-- A transport that always answers status 500. -/
def always500 {V : Type} : Transport V Unit := fun _ _ _ _ => .ok ⟨500, [], []⟩

/-- A transport answering 500 on the first attempt and 200 with body `[1, 2]`
thereafter. -/
def failThen200 {V : Type} : Transport V Unit := fun _ _ _ i =>
  if i = 0 then .ok ⟨500, [], []⟩ else .ok ⟨200, [], [1, 2]⟩

/-- A transport whose every call raises the exception `7`. -/
def raise7 {V : Type} : Transport V Nat := fun _ _ _ _ => .error 7

/-! ### The dispatch claims -/

/-- C1: for every retry limit `R ≥ 1` and valid arguments, if every transport
call returns a response with status code different from 200, then `request`
issues exactly `R` transport calls and then fails with an `HttpError` carrying
the status code of the last (the `R`th) response and the requested url. -/
theorem request_allNon200_exhausts_retries {V ε : Type} (transport : Transport V ε)
    (R : Nat) (delay : DelayObj) (selfHeaders : V) (url method : String)
    (kwargs : List (String × V))
    (hR : 1 ≤ R) (hu : url ≠ "") (hm : strLower method ∈ methodKeys)
    (hfail : ∀ i, i < R → ∃ ri,
      transport (strLower method) url (effKwargs kwargs selfHeaders) i = .ok ri ∧
        ri.status_code ≠ 200) :
    (request transport R delay selfHeaders url method kwargs).calls = R ∧
    ∃ rl, transport (strLower method) url (effKwargs kwargs selfHeaders) (R - 1) =
        .ok rl ∧
      (request transport R delay selfHeaders url method kwargs).outcome =
        .error (.httpError rl.status_code url) := by
  rw [request_eq_requestLoop transport R delay selfHeaders url method kwargs hu hm]
  obtain ⟨rl, hrl, heq⟩ := requestLoop_allFail
    (transport (strLower method) url (effKwargs kwargs selfHeaders)) url R 0 0 delay
    none hR (by intro i hi; simpa using hfail i hi)
  rw [heq]
  exact ⟨by simp, rl, by simpa using hrl, rfl⟩

/-- Witness for C1: against a transport always answering 500, with retry limit
2 the dispatch makes exactly 2 calls and fails with `HttpError` carrying 500
and the url. -/
theorem request_allNon200_exhausts_retries_witness :
    (request (always500 : Transport Unit Unit) 2 (.real ⟨0, 10, 1⟩) () "x" "get"
        []).calls = 2 ∧
    (request (always500 : Transport Unit Unit) 2 (.real ⟨0, 10, 1⟩) () "x" "get"
        []).outcome = .error (.httpError 500 "x") := by
  obtain ⟨h1, rl, hrl, ho⟩ := request_allNon200_exhausts_retries
    (always500 : Transport Unit Unit) 2 (.real ⟨0, 10, 1⟩) () "x" "get" []
    (by omega) (by decide) (by decide) (fun i _ => ⟨⟨500, [], []⟩, rfl, by decide⟩)
  have hrl' : rl = ⟨500, [], []⟩ := by simpa [always500] using hrl.symm
  exact ⟨h1, by rw [ho, hrl']⟩

/-- C2: if the transport returns non-200 responses on the first `k` attempts
and a status-200 response on attempt `k + 1` (with `k < R`), then `request`
returns that 200 response and has issued exactly `k + 1` transport calls. -/
theorem request_returns_first_200 {V ε : Type} (transport : Transport V ε)
    (R k : Nat) (delay : DelayObj) (selfHeaders : V) (url method : String)
    (kwargs : List (String × V)) (r : Response)
    (hk : k < R) (hu : url ≠ "") (hm : strLower method ∈ methodKeys)
    (hfail : ∀ i, i < k → ∃ ri,
      transport (strLower method) url (effKwargs kwargs selfHeaders) i = .ok ri ∧
        ri.status_code ≠ 200)
    (hok : transport (strLower method) url (effKwargs kwargs selfHeaders) k = .ok r)
    (h200 : r.status_code = 200) :
    (request transport R delay selfHeaders url method kwargs).outcome = .ok r ∧
    (request transport R delay selfHeaders url method kwargs).calls = k + 1 := by
  rw [request_eq_requestLoop transport R delay selfHeaders url method kwargs hu hm]
  rw [requestLoop_succAt (transport (strLower method) url (effKwargs kwargs selfHeaders))
    url r h200 k R 0 0 delay none hk (by intro i hi; simpa using hfail i hi)
    (by simpa using hok)]
  exact ⟨rfl, by simp⟩

/-- Witness for C2: one 500 then a 200; with retry limit 3 the dispatch
returns the 200 response after exactly 2 calls. -/
theorem request_returns_first_200_witness :
    (request (failThen200 : Transport Unit Unit) 3 (.real ⟨0, 10, 1⟩) () "x" "get"
        []).outcome = .ok ⟨200, [], [1, 2]⟩ ∧
    (request (failThen200 : Transport Unit Unit) 3 (.real ⟨0, 10, 1⟩) () "x" "get"
        []).calls = 2 := by
  exact request_returns_first_200 (failThen200 : Transport Unit Unit) 3 1
    (.real ⟨0, 10, 1⟩) () "x" "get" [] ⟨200, [], [1, 2]⟩ (by omega) (by decide)
    (by decide)
    (fun i hi => by
      have hi0 : i = 0 := by omega
      subst hi0
      exact ⟨⟨500, [], []⟩, rfl, by decide⟩)
    rfl rfl

/-- C4: dispatch with an empty url or an empty method fails with the
invalid-argument error with zero transport calls issued; with non-empty url
and method whose lowercased form is not among the bound verbs it fails with
the unsupported-method error, again with zero transport calls; and the three
dispatcher error kinds are pairwise distinct. -/
theorem request_validation_errors {V ε : Type} (transport : Transport V ε)
    (R : Nat) (delay : DelayObj) (selfHeaders : V) (url method : String)
    (kwargs : List (String × V)) :
    (url = "" ∨ method = "" →
      request transport R delay selfHeaders url method kwargs =
        ⟨.error .invalidArgument, 0, delay, 0⟩) ∧
    (url ≠ "" → method ≠ "" → strLower method ∉ methodKeys →
      request transport R delay selfHeaders url method kwargs =
        ⟨.error (.unsupportedMethod (strLower method)), 0, delay, 0⟩) ∧
    (∀ (m : String) (st : Int) (u : String),
      (SpiderError.invalidArgument : SpiderError ε) ≠ .unsupportedMethod m ∧
      (SpiderError.invalidArgument : SpiderError ε) ≠ .httpError st u ∧
      (SpiderError.unsupportedMethod m : SpiderError ε) ≠ .httpError st u) := by
  refine ⟨?_, ?_, ?_⟩
  · intro h
    have hc : method = "" ∨ url = "" := h.symm
    simp only [request]
    rw [if_pos hc]
  · intro hu hm hmem
    have hc : ¬(method = "" ∨ url = "") := by
      intro hc
      rcases hc with hc | hc
      · exact hm hc
      · exact hu hc
    simp only [request]
    rw [if_neg hc, if_neg hmem]
  · intro m st u
    exact ⟨fun h => SpiderError.noConfusion h, fun h => SpiderError.noConfusion h,
      fun h => SpiderError.noConfusion h⟩

/-- Witness for C4 at the spec's two examples: `dispatch(url="", method="get")`
fails invalid-argument and `dispatch(url="x", method="unknown")` fails
unsupported-method, both with zero transport calls. -/
theorem request_validation_errors_witness :
    request (always500 : Transport Unit Unit) 3 (.real ⟨0, 10, 1⟩) () "" "get" [] =
      ⟨.error .invalidArgument, 0, .real ⟨0, 10, 1⟩, 0⟩ ∧
    request (always500 : Transport Unit Unit) 3 (.real ⟨0, 10, 1⟩) () "x" "unknown" [] =
      ⟨.error (.unsupportedMethod (strLower "unknown")), 0, .real ⟨0, 10, 1⟩, 0⟩ := by
  refine ⟨(request_validation_errors (always500 : Transport Unit Unit) 3
      (.real ⟨0, 10, 1⟩) () "" "get" []).1 (Or.inl rfl),
    (request_validation_errors (always500 : Transport Unit Unit) 3
      (.real ⟨0, 10, 1⟩) () "x" "unknown" []).2.1 (by decide) (by decide) (by decide)⟩

/-- C6: if, after `k` non-200 responses, the next transport call raises an
exception `e` (with retries remaining, `k < R`), then `request` surfaces `e`
itself — not any of the dispatcher's own error kinds — and issues no further
transport call: exactly `k + 1` in total. -/
theorem request_transport_exception_propagates {V ε : Type} (transport : Transport V ε)
    (R k : Nat) (delay : DelayObj) (selfHeaders : V) (url method : String)
    (kwargs : List (String × V)) (e : ε)
    (hk : k < R) (hu : url ≠ "") (hm : strLower method ∈ methodKeys)
    (hfail : ∀ i, i < k → ∃ ri,
      transport (strLower method) url (effKwargs kwargs selfHeaders) i = .ok ri ∧
        ri.status_code ≠ 200)
    (herr : transport (strLower method) url (effKwargs kwargs selfHeaders) k =
      .error e) :
    (request transport R delay selfHeaders url method kwargs).outcome =
      .error (.transport e) ∧
    (request transport R delay selfHeaders url method kwargs).calls = k + 1 ∧
    (∀ (m : String) (st : Int) (u : String),
      (SpiderError.transport e : SpiderError ε) ≠ .invalidArgument ∧
      (SpiderError.transport e : SpiderError ε) ≠ .unsupportedMethod m ∧
      (SpiderError.transport e : SpiderError ε) ≠ .httpError st u) := by
  rw [request_eq_requestLoop transport R delay selfHeaders url method kwargs hu hm]
  rw [requestLoop_errAt (transport (strLower method) url (effKwargs kwargs selfHeaders))
    url e k R 0 0 delay none hk (by intro i hi; simpa using hfail i hi)
    (by simpa using herr)]
  exact ⟨rfl, by simp, fun m st u =>
    ⟨fun h => SpiderError.noConfusion h, fun h => SpiderError.noConfusion h,
      fun h => SpiderError.noConfusion h⟩⟩

/-- Witness for C6: a transport raising the exception `7` on its first call;
with retry limit 5 the dispatch surfaces `7` after exactly one call. -/
theorem request_transport_exception_propagates_witness :
    (request (raise7 : Transport Unit Nat) 5 (.real ⟨0, 10, 1⟩) () "x" "get"
        []).outcome = .error (.transport 7) ∧
    (request (raise7 : Transport Unit Nat) 5 (.real ⟨0, 10, 1⟩) () "x" "get"
        []).calls = 1 := by
  obtain ⟨h1, h2, _⟩ := request_transport_exception_propagates
    (raise7 : Transport Unit Nat) 5 0 (.real ⟨0, 10, 1⟩) () "x" "get" [] 7
    (by omega) (by decide) (by decide) (fun i hi => by omega) rfl
  exact ⟨h1, h2⟩

/-- C8: when argument validation fails (empty url, empty method, or unknown
method), the shared delay object is returned untouched — in particular its
counter is unchanged — no pause fires and no transport call is issued. -/
theorem request_validation_leaves_throttle_untouched {V ε : Type}
    (transport : Transport V ε) (R : Nat) (delay : DelayObj) (selfHeaders : V)
    (url method : String) (kwargs : List (String × V))
    (h : url = "" ∨ method = "" ∨ strLower method ∉ methodKeys) :
    (request transport R delay selfHeaders url method kwargs).delay = delay ∧
    (request transport R delay selfHeaders url method kwargs).pauses = 0 ∧
    (request transport R delay selfHeaders url method kwargs).calls = 0 := by
  by_cases hc : method = "" ∨ url = ""
  · simp only [request]
    rw [if_pos hc]
    exact ⟨rfl, rfl, rfl⟩
  · have hmem : strLower method ∉ methodKeys := by
      rcases h with h | h | h
      · exact absurd (Or.inr h) hc
      · exact absurd (Or.inl h) hc
      · exact h
    simp only [request]
    rw [if_neg hc, if_neg hmem]
    exact ⟨rfl, rfl, rfl⟩

/-- Witness for C8: `dispatch(url="", method="get")` leaves a throttle with
counter 0 untouched, fires no pause and issues no transport call. -/
theorem request_validation_leaves_throttle_untouched_witness :
    (request (always500 : Transport Unit Unit) 3 (.real ⟨0, 10, 1⟩) () "" "get"
        []).delay = .real ⟨0, 10, 1⟩ ∧
    (request (always500 : Transport Unit Unit) 3 (.real ⟨0, 10, 1⟩) () "" "get"
        []).pauses = 0 ∧
    (request (always500 : Transport Unit Unit) 3 (.real ⟨0, 10, 1⟩) () "" "get"
        []).calls = 0 :=
  request_validation_leaves_throttle_untouched (always500 : Transport Unit Unit) 3
    (.real ⟨0, 10, 1⟩) () "" "get" [] (Or.inl rfl)

/-- C9: for a dispatch that passes validation and whose shared throttle is a
real `Delay`, the throttle's counter grows by exactly the number of transport
calls the dispatch issues — by `k + 1` when the call succeeds on attempt
`k + 1` after `k` non-200 attempts, and by the full retry limit `R` when every
attempt returns non-200 and the call fails with `HttpError` — because the
throttle is activated exactly once before each transport call. -/
theorem request_counter_tracks_attempts {V ε : Type} (transport : Transport V ε)
    (R c N : Nat) (s : ℚ) (selfHeaders : V) (url method : String)
    (kwargs : List (String × V))
    (hu : url ≠ "") (hm : strLower method ∈ methodKeys) :
    (∀ (k : Nat) (r : Response), k < R →
      (∀ i, i < k → ∃ ri,
        transport (strLower method) url (effKwargs kwargs selfHeaders) i = .ok ri ∧
          ri.status_code ≠ 200) →
      transport (strLower method) url (effKwargs kwargs selfHeaders) k = .ok r →
      r.status_code = 200 →
      ((request transport R (.real ⟨c, N, s⟩) selfHeaders url method
          kwargs).delay).counter = c + (k + 1) ∧
      (request transport R (.real ⟨c, N, s⟩) selfHeaders url method kwargs).calls =
        k + 1) ∧
    (1 ≤ R →
      (∀ i, i < R → ∃ ri,
        transport (strLower method) url (effKwargs kwargs selfHeaders) i = .ok ri ∧
          ri.status_code ≠ 200) →
      ((request transport R (.real ⟨c, N, s⟩) selfHeaders url method
          kwargs).delay).counter = c + R ∧
      (request transport R (.real ⟨c, N, s⟩) selfHeaders url method kwargs).calls =
        R) := by
  constructor
  · intro k r hk hfail hok h200
    rw [request_eq_requestLoop transport R (.real ⟨c, N, s⟩) selfHeaders url method
      kwargs hu hm]
    rw [requestLoop_succAt (transport (strLower method) url
        (effKwargs kwargs selfHeaders)) url r h200 k R 0 0 (.real ⟨c, N, s⟩) none hk
      (by intro i hi; simpa using hfail i hi) (by simpa using hok)]
    constructor
    · show ((DelayObj.real ⟨c, N, s⟩).iter (k + 1)).counter = c + (k + 1)
      rw [DelayObj.iter_real]
      rfl
    · simp
  · intro hR hfail
    rw [request_eq_requestLoop transport R (.real ⟨c, N, s⟩) selfHeaders url method
      kwargs hu hm]
    obtain ⟨rl, hrl, heq⟩ := requestLoop_allFail
      (transport (strLower method) url (effKwargs kwargs selfHeaders)) url R 0 0
      (.real ⟨c, N, s⟩) none hR (by intro i hi; simpa using hfail i hi)
    rw [heq]
    constructor
    · show ((DelayObj.real ⟨c, N, s⟩).iter R).counter = c + R
      rw [DelayObj.iter_real]
      rfl
    · simp

/-- Witness for C9: the success case at `k = 1` (transport `failThen200`,
retry limit 3: counter and calls both reach 2) and the exhaustion case at
`R = 2` (transport `always500`: counter and calls both reach 2). -/
theorem request_counter_tracks_attempts_witness :
    ((request (failThen200 : Transport Unit Unit) 3 (.real ⟨0, 10, 1⟩) () "x" "get"
        []).delay).counter = 2 ∧
    (request (failThen200 : Transport Unit Unit) 3 (.real ⟨0, 10, 1⟩) () "x" "get"
        []).calls = 2 ∧
    ((request (always500 : Transport Unit Unit) 2 (.real ⟨0, 10, 1⟩) () "x" "get"
        []).delay).counter = 2 ∧
    (request (always500 : Transport Unit Unit) 2 (.real ⟨0, 10, 1⟩) () "x" "get"
        []).calls = 2 := by
  obtain ⟨hs, _⟩ := request_counter_tracks_attempts (failThen200 : Transport Unit Unit)
    3 0 10 1 () "x" "get" [] (by decide) (by decide)
  obtain ⟨h1, h2⟩ := hs 1 ⟨200, [], [1, 2]⟩ (by omega)
    (fun i hi => by
      have hi0 : i = 0 := by omega
      subst hi0
      exact ⟨⟨500, [], []⟩, rfl, by decide⟩)
    rfl rfl
  obtain ⟨_, hf⟩ := request_counter_tracks_attempts (always500 : Transport Unit Unit)
    2 0 10 1 () "x" "get" [] (by decide) (by decide)
  obtain ⟨h3, h4⟩ := hf (by omega) (fun i _ => ⟨⟨500, [], []⟩, rfl, by decide⟩)
  exact ⟨h1, h2, h3, h4⟩

/-! ### The download claims -/

/-- The number of chunks the download loop reads before stopping: chunks are
consumed until the cumulative length reaches `L` (checked after each chunk) or
the stream ends. -/
def readLen (L : Int) : List Bytes → Nat → Nat
  | [], _ => 0
  | c :: rest, dl =>
    let dl1 := dl + c.length
    if L ≤ (dl1 : Int) then 1 else readLen L rest dl1 + 1

theorem downloadLoop_eq_take_filter (L : Int) :
    ∀ (chunks : List Bytes) (dl : Nat),
      downloadLoop L chunks dl =
        (chunks.take (readLen L chunks dl)).filter (fun c => !c.isEmpty) := by
  intro chunks
  induction chunks with
  | nil => intro dl; rfl
  | cons c rest ih =>
    intro dl
    by_cases hL : L ≤ ((dl + c.length : Nat) : Int)
    · simp only [downloadLoop, readLen, if_pos hL]
      cases hc : c.isEmpty <;> simp [List.filter_cons, hc]
    · simp only [downloadLoop, readLen, if_neg hL]
      rw [ih (dl + c.length)]
      cases hc : c.isEmpty <;> simp [List.filter_cons, hc]

theorem readLen_le_length (L : Int) :
    ∀ (chunks : List Bytes) (dl : Nat), readLen L chunks dl ≤ chunks.length := by
  intro chunks
  induction chunks with
  | nil => intro dl; exact Nat.le_refl 0
  | cons c rest ih =>
    intro dl
    by_cases hL : L ≤ ((dl + c.length : Nat) : Int)
    · simp only [readLen, if_pos hL, List.length_cons]
      omega
    · simp only [readLen, if_neg hL, List.length_cons]
      have := ih (dl + c.length)
      omega

theorem readLen_stop (L : Int) :
    ∀ (chunks : List Bytes) (dl : Nat),
      L ≤ ((dl + cumLen (chunks.take (readLen L chunks dl)) : Nat) : Int) ∨
        readLen L chunks dl = chunks.length := by
  intro chunks
  induction chunks with
  | nil => intro dl; exact Or.inr rfl
  | cons c rest ih =>
    intro dl
    by_cases hL : L ≤ ((dl + c.length : Nat) : Int)
    · left
      simp only [readLen, if_pos hL, List.take_succ_cons, List.take_zero, cumLen,
        List.map_cons, List.map_nil, List.sum_cons, List.sum_nil]
      push_cast
      push_cast at hL
      omega
    · rcases ih (dl + c.length) with h | h
      · left
        simp only [readLen, if_neg hL, List.take_succ_cons, cumLen, List.map_cons,
          List.sum_cons]
        simp only [cumLen] at h
        push_cast
        push_cast at h
        omega
      · right
        simp only [readLen, if_neg hL, List.length_cons, h]

theorem readLen_min (L : Int) :
    ∀ (chunks : List Bytes) (dl j : Nat), j + 1 < readLen L chunks dl →
      ((dl + cumLen (chunks.take (j + 1)) : Nat) : Int) < L := by
  intro chunks
  induction chunks with
  | nil =>
    intro dl j h
    simp only [readLen] at h
    omega
  | cons c rest ih =>
    intro dl j h
    by_cases hL : L ≤ ((dl + c.length : Nat) : Int)
    · rw [readLen, if_pos hL] at h
      omega
    · rw [readLen, if_neg hL] at h
      have hnotle : ((dl + c.length : Nat) : Int) < L := by omega
      match j with
      | 0 =>
        simp only [List.take_succ_cons, List.take_zero, cumLen, List.map_cons,
          List.map_nil, List.sum_cons, List.sum_nil]
        push_cast
        push_cast at hnotle
        omega
      | j + 1 =>
        have := ih (dl + c.length) j (by omega)
        simp only [List.take_succ_cons, cumLen, List.map_cons, List.sum_cons]
        simp only [cumLen] at this
        push_cast
        push_cast at this
        omega

/-- A 40-byte chunk, used in the concrete download scenario. -/
def chunk40 : Bytes := List.replicate 40 0

/-- C3: under a declared `Content-Length` `L`, the download writes exactly the
non-empty chunks among the prefix of the stream it reads, and it reads further
only while the cumulative length of the chunks read so far (empty ones
included) is still below `L`, stopping at the first chunk that makes it reach
or exceed `L` (so the written bytes may overshoot `L` by up to one chunk) or
at the end of the stream; in particular, with `Content-Length: 100` and three
yielded chunks of 40 bytes each, all three chunks are written (120 bytes). -/
theorem download_contentLength_chunking (res : Response) (chunks : List Bytes)
    (v : String) (L : Int)
    (hv : res.headers.lookup "Content-Length" = some v)
    (hL : parseInt v = some L) :
    (∃ m, m ≤ chunks.length ∧
      downloadWrites res chunks =
        some ((chunks.take m).filter (fun c => !c.isEmpty)) ∧
      (L ≤ ((cumLen (chunks.take m) : Nat) : Int) ∨ m = chunks.length) ∧
      (∀ j, j + 1 < m → ((cumLen (chunks.take (j + 1)) : Nat) : Int) < L)) ∧
    downloadWrites ⟨200, [("Content-Length", "100")], []⟩ [chunk40, chunk40, chunk40]
      = some [chunk40, chunk40, chunk40] := by
  constructor
  · refine ⟨readLen L chunks 0, readLen_le_length L chunks 0, ?_, ?_, ?_⟩
    · simp only [downloadWrites, hv, hL]
      exact congrArg some (downloadLoop_eq_take_filter L chunks 0)
    · simpa using readLen_stop L chunks 0
    · intro j hj
      simpa using readLen_min L chunks 0 j hj
  · decide

/-- Witness for C3: the spec's 40/40/40 stream against `Content-Length: 100`;
the read prefix is the whole stream and all three chunks are written. -/
theorem download_contentLength_chunking_witness :
    ∃ m, m ≤ ([chunk40, chunk40, chunk40] : List Bytes).length ∧
      downloadWrites ⟨200, [("Content-Length", "100")], []⟩ [chunk40, chunk40, chunk40]
        = some ((([chunk40, chunk40, chunk40] : List Bytes).take m).filter
            (fun c => !c.isEmpty)) ∧
      ((100 : Int) ≤ ((cumLen (([chunk40, chunk40, chunk40] : List Bytes).take m) :
          Nat) : Int) ∨ m = ([chunk40, chunk40, chunk40] : List Bytes).length) ∧
      (∀ j, j + 1 < m → ((cumLen (([chunk40, chunk40, chunk40] : List Bytes).take
          (j + 1)) : Nat) : Int) < 100) :=
  (download_contentLength_chunking ⟨200, [("Content-Length", "100")], []⟩
    [chunk40, chunk40, chunk40] "100" 100 (by decide) (by decide)).1

/-- C7: for a response carrying no `Content-Length` header, the entire
buffered body is written in exactly one write call, with no chunk
iteration. -/
theorem download_noContentLength_single_write (res : Response) (chunks : List Bytes)
    (h : res.headers.lookup "Content-Length" = none) :
    downloadWrites res chunks = some [res.content] ∧
    (downloadWrites res chunks).map List.length = some 1 := by
  have h1 : downloadWrites res chunks = some [res.content] := by
    simp only [downloadWrites, h]
  exact ⟨h1, by rw [h1]; rfl⟩

/-- Witness for C7: a response without `Content-Length` and body `[9, 9]`;
the stream chunks are ignored and the body is written in one call. -/
theorem download_noContentLength_single_write_witness :
    downloadWrites ⟨200, [("X-Other", "1")], [9, 9]⟩ [[1], [2]] = some [[9, 9]] ∧
    (downloadWrites ⟨200, [("X-Other", "1")], [9, 9]⟩ [[1], [2]]).map List.length
      = some 1 :=
  download_noContentLength_single_write ⟨200, [("X-Other", "1")], [9, 9]⟩ [[1], [2]]
    (by decide)

/-! ### The constructor claim -/

/-- The attribute names the constructor body itself assigns, in assignment
order. -/
def coreConfigKeys : List String :=
  ["logger", "session", "methods", "headers", "encodes", "retry", "delay"]

/-- C10: the constructor attaches unrecognized extra keywords as instance
attributes before assigning the core configuration, so no extra keyword can
override it: after construction the seven core attributes hold exactly the
values derived from the named parameters, whatever `kwargs` contains, while
every other attribute name still holds whatever the keyword phase wrote. -/
theorem init_config_overrides_extras (session : Bool)
    (headers : Option (List (String × String))) (encoding : EncodingArg)
    (retry : Nat) (delay : Option DelayObj) (kwargs : List (String × PyVal)) :
    RequestHandler.init session headers encoding retry delay kwargs "logger" =
      some .loggerObj ∧
    RequestHandler.init session headers encoding retry delay kwargs "session" =
      some (.sessionObj session) ∧
    RequestHandler.init session headers encoding retry delay kwargs "methods" =
      some (.methodsDict session) ∧
    RequestHandler.init session headers encoding retry delay kwargs "headers" =
      some (.headersDict (match headers with | none => HEADERS | some h => h)) ∧
    RequestHandler.init session headers encoding retry delay kwargs "encodes" =
      some (.encodesTup (normalizeEncoding encoding)) ∧
    RequestHandler.init session headers encoding retry delay kwargs "retry" =
      some (.retryVal retry) ∧
    RequestHandler.init session headers encoding retry delay kwargs "delay" =
      some (.delayVal (match delay with | none => .noop ⟨0, 10, 1⟩ | some d => d)) ∧
    (∀ k, k ∉ coreConfigKeys →
      RequestHandler.init session headers encoding retry delay kwargs k =
        kwargs.foldl (fun a kv => setattr a kv.1 kv.2) (fun _ => none) k) := by
  refine ⟨?_, ?_, ?_, ?_, ?_, ?_, ?_, ?_⟩
  · simp [RequestHandler.init, setattr]
  · simp [RequestHandler.init, setattr]
  · simp [RequestHandler.init, setattr]
  · simp [RequestHandler.init, setattr]
  · simp [RequestHandler.init, setattr]
  · simp [RequestHandler.init, setattr]
  · simp [RequestHandler.init, setattr]
  · intro k hk
    simp only [coreConfigKeys, List.mem_cons, List.not_mem_nil, or_false,
      not_or] at hk
    obtain ⟨h1, h2, h3, h4, h5, h6, h7⟩ := hk
    simp [RequestHandler.init, setattr, h1, h2, h3, h4, h5, h6, h7]

/-- Witness for C10: extra keywords trying to smuggle in `methods` and a
benign `color` key; the core `methods` attribute still holds the bound-method
dict while `color` holds the keyword's value. -/
theorem init_config_overrides_extras_witness :
    RequestHandler.init true none (.str "UTF-8") 3 none
      [("methods", .extra 1), ("color", .extra 2)] "methods" =
        some (.methodsDict true) ∧
    RequestHandler.init true none (.str "UTF-8") 3 none
      [("methods", .extra 1), ("color", .extra 2)] "retry" = some (.retryVal 3) ∧
    RequestHandler.init true none (.str "UTF-8") 3 none
      [("methods", .extra 1), ("color", .extra 2)] "color" = some (.extra 2) := by
  obtain ⟨_, _, hm, _, _, hr, _, hrest⟩ := init_config_overrides_extras true none
    (.str "UTF-8") 3 none [("methods", .extra 1), ("color", .extra 2)]
  refine ⟨hm, hr, ?_⟩
  rw [hrest "color" (by decide)]
  simp [setattr]

end Spider
